import Mathlib

/-!
Verification of the subtitle aggregation pipeline of
`YoutubeSubtitleScraper` (`src/main.py`) against its specification.

The Python source is shallowly embedded:

* a file's decoded content is a `List Char`; the source's
  `content.split('\n')` is `List.splitOn '\n'`;
* Python `str.strip()` is `pyStrip` (drop whitespace from both ends);
* Python `str.isdigit()` is `pyIsDigit` (nonempty and all digits;
  the model restricts to ASCII digits, the only ones the spec mentions);
* Python `'-->' in line` is `hasArrow` (contiguous-sublist containment);
* the cursor loop of `parse_srt_to_text` (src/main.py lines 101-129) is
  `parseLinesGo`, structurally recursive on a fuel argument that counts
  iterations of the Python `while` loop; every iteration advances the
  cursor by at least one line, so `lines.length` iterations always
  suffice, and `parseLines` runs the loop with exactly that much fuel;
* the filesystem is an explicit environment `Env`: `glob` returns the
  files the recursive directory walk finds for one extension pattern,
  `read` models `open(...).read()` (content, or the message of the
  raised exception), `openW` models opening the output file for writing.
-/

namespace SubScraper

/-- Characters of a string literal; file contents and paths are `List Char`. -/
def str (s : String) : List Char := s.data

/-- Whitespace test used by the model of Python `str.strip()`. -/
def isSpace (c : Char) : Bool := c.isWhitespace

/-- Python `str.strip()`: drop whitespace from the front and the back. -/
def pyStrip (l : List Char) : List Char :=
  ((l.dropWhile isSpace).reverse.dropWhile isSpace).reverse

/-- Python `str.isdigit()`: nonempty and every character a digit. -/
def pyIsDigit (l : List Char) : Bool :=
  !l.isEmpty && l.all Char.isDigit

/-- The timestamp-range marker searched for by `'-->' in line`. -/
def arrow : List Char := ['-', '-', '>']

/-- Python `'-->' in line`: the marker occurs contiguously in the line. -/
def hasArrow (l : List Char) : Bool := decide (arrow <:+: l)

/-- Lines 113-114 of src/main.py: after the index line, skip the next line
when it contains the timestamp-range marker. -/
def skipTimestamp : List (List Char) → List (List Char)
  | [] => []
  | m :: ms => if hasArrow m then ms else m :: ms

/-- Lines 117-120 of src/main.py: collect stripped text lines while the
current line is non-blank after stripping and not a pure digit string;
returns the collected lines and the remaining lines. -/
def collectText : List (List Char) → List (List Char) × List (List Char)
  | [] => ([], [])
  | l :: ls =>
    if !(pyStrip l).isEmpty && !pyIsDigit (pyStrip l) then
      let r := collectText ls
      (pyStrip l :: r.1, r.2)
    else
      ([], l :: ls)

/-- The cursor loop of `parse_srt_to_text` (src/main.py lines 101-128),
one fuel unit per iteration of the Python `while i < len(lines)` loop. -/
def parseLinesGo : Nat → List (List Char) → List (List Char)
  | 0, _ => []
  | _ + 1, [] => []
  | fuel + 1, l :: ls =>
    if (pyStrip l).isEmpty then
      parseLinesGo fuel ls
    else if pyIsDigit (pyStrip l) then
      let rest := skipTimestamp ls
      let r := collectText rest
      (if r.1.isEmpty then [] else [List.intercalate [' '] r.1]) ++
        parseLinesGo fuel r.2
    else
      (if !(pyStrip l).isEmpty && !hasArrow l then [pyStrip l] else []) ++
        parseLinesGo fuel ls

/-- The list `parsed_text` built by the loop: every iteration consumes at
least one line, so `lines.length` fuel runs the loop to completion. -/
def parseLines (lines : List (List Char)) : List (List Char) :=
  parseLinesGo lines.length lines

/-- The pure part of `parse_srt_to_text`: split the decoded content on
newlines, run the cursor loop, join the results with newlines
(src/main.py lines 98-130). -/
def parseContent (content : List Char) : List Char :=
  List.intercalate ['\n'] (parseLines (content.splitOn '\n'))

/-- The filesystem environment the pipeline runs against.
`glob dir ext` lists the files found by
`glob.glob(f"{dir}/**/*{ext}", recursive=True)` in walk order;
`read p` is the decoded content of file `p` (`errors='replace'` decoding
never fails, so the error case models `open`/`read` raising, carrying the
exception's message); `openW p` models `open(p, 'w')`. -/
structure Env where
  glob : List Char → List Char → List (List Char)
  read : List Char → Except (List Char) (List Char)
  openW : List Char → Except (List Char) Unit

/-- Model of `parse_srt_to_text` (src/main.py lines 91-132): read the file and run
the cursor loop; the surrounding `try` turns any exception `e` into the
string `f"[Error parsing file: {str(e)}]"`.  The loop itself is total, so
the only exception source is reading the file. -/
def parse_srt_to_text (env : Env) (file_path : List Char) : List Char :=
  match env.read file_path with
  | .ok content => parseContent content
  | .error e => str "[Error parsing file: " ++ e ++ str "]"

/-- Python `os.path.basename` (POSIX): the part after the last slash. -/
def basename (p : List Char) : List Char :=
  (p.reverse.takeWhile (fun c => c ≠ '/')).reverse

/-- The root part of Python `os.path.splitext` on a basename: cut at the
last dot provided some character before that dot is not itself a dot
(so names consisting only of leading dots keep their dots). -/
def splitextRoot (name : List Char) : List Char :=
  let extRev := name.reverse.takeWhile (fun c => c ≠ '.')
  if extRev.length = name.length then name
  else
    let root := name.take (name.length - extRev.length - 1)
    if root.any (fun c => c ≠ '.') then root else name

/-- The 80-character divider `'=' * 80` of src/main.py lines 176 and 179. -/
def eq80 : List Char := List.replicate 80 '='

/-- The extension registry of src/main.py line 151, in source order. -/
def subtitleExtensions : List (List Char) :=
  [str ".srt", str ".vtt", str ".ass", str ".lrc",
   str ".ttml", str ".sbv", str ".json"]

/-- Discovery (src/main.py lines 149-155): for each registry extension in
order, append the files the recursive glob returns for it. -/
def discoverFiles (env : Env) (output_dir : List Char) : List (List Char) :=
  subtitleExtensions.flatMap (fun ext => env.glob output_dir ext)

/-- The merge loop body (src/main.py lines 169-196): for each file append
the divider block, the `VIDEO:`/`FILE:` header, the closing divider and
the parsed transcript to the output, and increment the counter.  Nothing
in the body can raise in the model — `parse_srt_to_text` already catches
every read error — so the loop's `except` arm (lines 195-196) is never
taken for unreadable files and the body is total. -/
def mergeLoop (env : Env) : List (List Char) → List Char → Nat → List Char × Nat
  | [], out, count => (out, count)
  | srt_file :: rest, out, count =>
    let filename := basename srt_file
    let video_title := splitextRoot filename
    let out := out ++ str "\n\n" ++ eq80 ++ str "\n"
    let out := out ++ str "VIDEO: " ++ video_title ++ str "\n"
    let out := out ++ str "FILE: " ++ srt_file ++ str "\n"
    let out := out ++ eq80 ++ str "\n\n"
    let subtitle_text := parse_srt_to_text env srt_file
    let out := out ++ subtitle_text
    mergeLoop env rest out (count + 1)

/-- Result of one `merge_subtitles` call: the bytes written to the output
file (`none` when the file was never opened) and the returned count. -/
structure MergeOutcome where
  fileContent : Option (List Char)
  returnCount : Nat
  deriving DecidableEq

/-- Model of `merge_subtitles` (src/main.py lines 134-200): discover files; with no
matches return 0 before ever opening the output file; otherwise open the
output file — a failure there escapes the function, since the only `try`
is inside the per-file loop — and run the merge loop. -/
def merge_subtitles (env : Env) (output_dir final_output_file : List Char) :
    Except (List Char) MergeOutcome :=
  let subtitle_files := discoverFiles env output_dir
  if subtitle_files.isEmpty then
    .ok ⟨none, 0⟩
  else
    match env.openW final_output_file with
    | .error e => .error e
    | .ok _ =>
      let r := mergeLoop env subtitle_files [] 0
      .ok ⟨some r.1, r.2⟩

/-- The section `merge_subtitles` writes for one discovered file; the
merge loop appends exactly this block per file (proved below). -/
def fileSection (env : Env) (srt_file : List Char) : List Char :=
  str "\n\n" ++ eq80 ++ str "\n" ++
    (str "VIDEO: " ++ splitextRoot (basename srt_file) ++ str "\n") ++
    (str "FILE: " ++ srt_file ++ str "\n") ++
    (eq80 ++ str "\n\n") ++
    parse_srt_to_text env srt_file

/-- The whole document `merge_subtitles` writes: one section per
discovered file, in discovery order. -/
def mergedDoc (env : Env) (output_dir : List Char) : List Char :=
  ((discoverFiles env output_dir).map (fileSection env)).flatten

/-! ### Helper lemmas -/

theorem skipTimestamp_length (ls : List (List Char)) :
    (skipTimestamp ls).length ≤ ls.length := by
  cases ls with
  | nil => simp [skipTimestamp]
  | cons m ms =>
    by_cases h : hasArrow m = true <;>
      simp [skipTimestamp, h] <;> omega

theorem collectText_snd_length (ls : List (List Char)) :
    (collectText ls).2.length ≤ ls.length := by
  induction ls with
  | nil => simp [collectText]
  | cons l ls ih =>
    by_cases h : (!(pyStrip l).isEmpty && !pyIsDigit (pyStrip l)) = true <;>
      simp [collectText, h] <;> omega

/-- Every line collected by the inner loop is the strip of some line that
passed the loop's guard: non-blank after stripping and not pure digits. -/
theorem collectText_fst_mem (ls : List (List Char)) :
    ∀ x ∈ (collectText ls).1, ∃ l, x = pyStrip l ∧
      (pyStrip l).isEmpty = false ∧ pyIsDigit (pyStrip l) = false := by
  induction ls with
  | nil => simp [collectText]
  | cons l ls ih =>
    by_cases h : (!(pyStrip l).isEmpty && !pyIsDigit (pyStrip l)) = true
    · simp only [collectText, h, if_true, List.mem_cons]
      rintro x (rfl | hx)
      · simp only [Bool.and_eq_true, Bool.not_eq_true'] at h
        exact ⟨l, rfl, h.1, h.2⟩
      · exact ih x hx
    · simp [collectText, h]

theorem dropWhile_head?_false (p : Char → Bool) (l : List Char) :
    ∀ c ∈ (l.dropWhile p).head?, p c = false := by
  induction l with
  | nil => simp
  | cons a t ih =>
    by_cases h : p a = true
    · simpa [List.dropWhile_cons, h] using ih
    · simp only [Bool.not_eq_true] at h
      simp [List.dropWhile_cons, h]

theorem dropWhile_eq_self_of_head? (p : Char → Bool) (l : List Char)
    (h : ∀ c ∈ l.head?, p c = false) : l.dropWhile p = l := by
  cases l with
  | nil => rfl
  | cons a t =>
    have := h a (by simp)
    simp [List.dropWhile_cons, this]

/-- A list of characters with no whitespace at either end. -/
def Stripped (x : List Char) : Prop :=
  (∀ c ∈ x.head?, isSpace c = false) ∧ (∀ c ∈ x.getLast?, isSpace c = false)

theorem pyStrip_eq_self {x : List Char} (h : Stripped x) : pyStrip x = x := by
  unfold pyStrip
  rw [dropWhile_eq_self_of_head? _ _ h.1]
  rw [dropWhile_eq_self_of_head? _ _ (by
    intro c hc
    rw [List.head?_reverse] at hc
    exact h.2 c hc)]
  exact List.reverse_reverse x

theorem getLast?_of_suffix {s t : List Char} (h : s <:+ t) (hs : s ≠ []) :
    t.getLast? = s.getLast? := by
  obtain ⟨u, rfl⟩ := h
  rw [List.getLast?_append]
  cases hlast : s.getLast? with
  | none => exact absurd (by simpa using hlast) hs
  | some a => rfl

theorem stripped_pyStrip (l : List Char) : Stripped (pyStrip l) := by
  unfold pyStrip
  constructor
  · intro c hc
    rw [List.head?_reverse] at hc
    have hd2 : (l.dropWhile isSpace).reverse.dropWhile isSpace ≠ [] := by
      rintro hnil; rw [hnil] at hc; simp at hc
    have hsuf : (l.dropWhile isSpace).reverse.dropWhile isSpace <:+
        (l.dropWhile isSpace).reverse := List.dropWhile_suffix _
    rw [← getLast?_of_suffix hsuf hd2, List.getLast?_reverse] at hc
    exact dropWhile_head?_false _ _ c hc
  · intro c hc
    rw [List.getLast?_reverse] at hc
    exact dropWhile_head?_false _ _ c hc

theorem pyStrip_idem (l : List Char) : pyStrip (pyStrip l) = pyStrip l :=
  pyStrip_eq_self (stripped_pyStrip l)

/-- The stripped line is a contiguous piece of the original line. -/
theorem pyStrip_infix_self (l : List Char) : pyStrip l <:+: l := by
  have h1 : l.dropWhile isSpace <:+ l := List.dropWhile_suffix _
  have h2 : (l.dropWhile isSpace).reverse.dropWhile isSpace <:+
      (l.dropWhile isSpace).reverse := List.dropWhile_suffix _
  have h3 : pyStrip l <+: l.dropWhile isSpace :=
    List.reverse_suffix.mp (by simpa [pyStrip] using h2)
  exact h3.isInfix.trans h1.isInfix

theorem hasArrow_pyStrip_false {l : List Char} (h : hasArrow l = false) :
    hasArrow (pyStrip l) = false := by
  unfold hasArrow at h ⊢
  simp only [decide_eq_false_iff_not] at h ⊢
  exact fun hin => h (hin.trans (pyStrip_infix_self l))

theorem pyIsDigit_isEmpty_false {x : List Char} (h : pyIsDigit x = true) :
    x.isEmpty = false := by
  unfold pyIsDigit at h
  simp only [Bool.and_eq_true, Bool.not_eq_true'] at h
  exact h.1

theorem intercalate_nil (sep : List Char) : List.intercalate sep [] = [] := by
  simp [List.intercalate]

theorem intercalate_singleton (sep x : List Char) :
    List.intercalate sep [x] = x := by
  simp [List.intercalate, List.intersperse]

theorem intercalate_cons_cons (sep x y : List Char) (t : List (List Char)) :
    List.intercalate sep (x :: y :: t) =
      x ++ sep ++ List.intercalate sep (y :: t) := by
  simp [List.intercalate, List.intersperse_cons_cons, List.append_assoc]

/-- Joining nonempty stripped lines with single spaces yields a nonempty
stripped string. -/
theorem intercalate_space_stripped (L : List (List Char))
    (hL : ∀ x ∈ L, x ≠ [] ∧ Stripped x) (hne : L ≠ []) :
    Stripped (List.intercalate [' '] L) ∧ List.intercalate [' '] L ≠ [] := by
  induction L with
  | nil => exact absurd rfl hne
  | cons x t ih =>
    have hx := hL x (by simp)
    cases t with
    | nil => rw [intercalate_singleton]; exact ⟨hx.2, hx.1⟩
    | cons y u =>
      have ih' := ih (fun z hz => hL z (by simp [hz])) (by simp)
      rw [intercalate_cons_cons]
      set J := List.intercalate [' '] (y :: u) with hJ
      refine ⟨⟨?_, ?_⟩, ?_⟩
      · intro c hc
        obtain ⟨a, as, rfl⟩ := List.exists_cons_of_ne_nil hx.1
        simp only [List.cons_append, List.head?_cons, Option.mem_def,
          Option.some.injEq] at hc
        exact hc ▸ hx.2.1 a (by simp)
      · intro c hc
        rw [List.append_assoc, List.getLast?_append] at hc
        have hJc : ([' '] ++ J).getLast? = J.getLast? :=
          getLast?_of_suffix (List.suffix_append [' '] J) ih'.2
        rw [hJc] at hc
        cases hlast : J.getLast? with
        | none => rw [hlast] at hc; exact absurd (by simpa using hlast) ih'.2
        | some a =>
          rw [hlast] at hc
          simp only [Option.or_some, Option.mem_def, Option.some.injEq] at hc
          exact hc ▸ ih'.1.2 a (by simp [hlast])
      · simp [hx.1]

/-- The space-join of nonempty stripped non-digit lines is never a pure
digit string, even after stripping. -/
theorem pyIsDigit_intercalate_false (L : List (List Char))
    (hL : ∀ x ∈ L, x ≠ [] ∧ Stripped x ∧ pyIsDigit x = false) (hne : L ≠ []) :
    pyIsDigit (pyStrip (List.intercalate [' '] L)) = false := by
  cases L with
  | nil => exact absurd rfl hne
  | cons x t =>
    have hx := hL x (by simp)
    cases t with
    | nil =>
      rw [intercalate_singleton, pyStrip_eq_self hx.2.1]
      exact hx.2.2
    | cons y u =>
      have hstr := intercalate_space_stripped (x :: y :: u)
        (fun z hz => ⟨(hL z hz).1, (hL z hz).2.1⟩) (by simp)
      rw [pyStrip_eq_self hstr.1]
      have hmem : ' ' ∈ List.intercalate [' '] (x :: y :: u) := by
        rw [intercalate_cons_cons]; simp
      have hall : (List.intercalate [' '] (x :: y :: u)).all Char.isDigit = false := by
        rw [List.all_eq_false]
        exact ⟨' ', hmem, by decide⟩
      simp [pyIsDigit, hall]

/-- No line the cursor loop emits is a pure digit string after stripping. -/
theorem parseLinesGo_not_digit (fuel : Nat) :
    ∀ lines : List (List Char), lines.length ≤ fuel →
      ∀ x ∈ parseLinesGo fuel lines, pyIsDigit (pyStrip x) = false := by
  induction fuel with
  | zero => intro lines _ x hx; simp [parseLinesGo] at hx
  | succ fuel ih =>
    intro lines hlen x hx
    cases lines with
    | nil => simp [parseLinesGo] at hx
    | cons l ls =>
      simp only [List.length_cons] at hlen
      simp only [parseLinesGo] at hx
      by_cases h1 : (pyStrip l).isEmpty = true
      · rw [if_pos h1] at hx
        exact ih ls (by omega) x hx
      · rw [if_neg h1] at hx
        by_cases h2 : pyIsDigit (pyStrip l) = true
        · rw [if_pos h2] at hx
          rcases List.mem_append.mp hx with hx | hx
          · by_cases h3 : (collectText (skipTimestamp ls)).1.isEmpty = true
            · rw [if_pos h3] at hx; simp at hx
            · rw [if_neg h3] at hx
              simp only [List.mem_singleton] at hx
              subst hx
              apply pyIsDigit_intercalate_false
              · intro z hz
                obtain ⟨l', rfl, hnem, hdig⟩ := collectText_fst_mem _ z hz
                exact ⟨by simpa using hnem, stripped_pyStrip l', hdig⟩
              · simpa using h3
          · apply ih _ ?_ x hx
            have hc := collectText_snd_length (skipTimestamp ls)
            have hs := skipTimestamp_length ls
            omega
        · rw [if_neg h2] at hx
          rcases List.mem_append.mp hx with hx | hx
          · by_cases h4 : (!(pyStrip l).isEmpty && !hasArrow l) = true
            · rw [if_pos h4] at hx
              simp only [List.mem_singleton] at hx
              subst hx
              rw [pyStrip_idem]
              simpa using h2
            · rw [if_neg h4] at hx; simp at hx
          · exact ih ls (by omega) x hx

/-- When no input line is a pure digit string after stripping, the cursor
loop never takes its numbered-block branch, and every emitted line is a
stripped input line that passed the `'-->' not in line` filter. -/
theorem parseLinesGo_no_arrow (fuel : Nat) :
    ∀ lines : List (List Char), lines.length ≤ fuel →
      (∀ l ∈ lines, pyIsDigit (pyStrip l) = false) →
      ∀ x ∈ parseLinesGo fuel lines, hasArrow x = false := by
  induction fuel with
  | zero => intro lines _ _ x hx; simp [parseLinesGo] at hx
  | succ fuel ih =>
    intro lines hlen hnd x hx
    cases lines with
    | nil => simp [parseLinesGo] at hx
    | cons l ls =>
      simp only [List.length_cons] at hlen
      simp only [parseLinesGo] at hx
      have hl := hnd l (by simp)
      by_cases h1 : (pyStrip l).isEmpty = true
      · rw [if_pos h1] at hx
        exact ih ls (by omega) (fun z hz => hnd z (by simp [hz])) x hx
      · rw [if_neg h1, if_neg (by simp [hl])] at hx
        rcases List.mem_append.mp hx with hx | hx
        · by_cases h4 : (!(pyStrip l).isEmpty && !hasArrow l) = true
          · rw [if_pos h4] at hx
            simp only [List.mem_singleton] at hx
            subst hx
            simp only [Bool.and_eq_true, Bool.not_eq_true'] at h4
            exact hasArrow_pyStrip_false h4.2
          · rw [if_neg h4] at hx; simp at hx
        · exact ih ls (by omega) (fun z hz => hnd z (by simp [hz])) x hx

/-- One subtitle block of the standard numbered format: an index line, a
timestamp line, and the block's text lines. -/
structure SrtBlock where
  index : List Char
  timestamp : List Char
  text : List (List Char)

/-- Well-formedness of a standard numbered block: the index line is pure
digits after stripping, the timestamp line contains the range marker, and
there is at least one text line, each non-blank after stripping, not pure
digits, and (being a line) containing no newline character. -/
structure WellFormedBlock (b : SrtBlock) : Prop where
  index_digit : pyIsDigit (pyStrip b.index) = true
  ts_arrow : hasArrow b.timestamp = true
  text_ne : b.text ≠ []
  text_ok : ∀ t ∈ b.text, (pyStrip t).isEmpty = false ∧ pyIsDigit (pyStrip t) = false
  no_newline : ∀ l ∈ b.index :: b.timestamp :: b.text, '\n' ∉ l

/-- The line sequence of a standard-format file: for each block its index
line, timestamp line and text lines, followed by a blank separator line. -/
def renderBlocks (bs : List SrtBlock) : List (List Char) :=
  bs.flatMap (fun b => b.index :: b.timestamp :: (b.text ++ [[]]))

/-- The inner loop collects exactly the stripped text lines of a block and
stops at the blank separator. -/
theorem collectText_text_append (text : List (List Char))
    (h : ∀ t ∈ text, (pyStrip t).isEmpty = false ∧ pyIsDigit (pyStrip t) = false) :
    ∀ rest, collectText (text ++ [] :: rest) = (text.map pyStrip, [] :: rest) := by
  induction text with
  | nil => intro rest; simp [collectText, pyStrip]
  | cons t ts ih =>
    intro rest
    have ht := h t (by simp)
    simp [collectText, ht.1, ht.2, ih (fun z hz => h z (by simp [hz]))]

/-- On a well-formed standard-format line sequence, the cursor loop emits
exactly one space-joined stripped block per subtitle block, in order. -/
theorem parseLinesGo_renderBlocks (bs : List SrtBlock) :
    ∀ fuel : Nat, (renderBlocks bs).length ≤ fuel →
      (∀ b ∈ bs, WellFormedBlock b) →
      parseLinesGo fuel (renderBlocks bs) =
        bs.map (fun b => List.intercalate [' '] (b.text.map pyStrip)) := by
  induction bs with
  | nil =>
    intro fuel _ _
    cases fuel <;> simp [renderBlocks, parseLinesGo]
  | cons b bs ih =>
    intro fuel hlen hwf
    have hb := hwf b (by simp)
    have hrender : renderBlocks (b :: bs) =
        b.index :: b.timestamp :: (b.text ++ [] :: renderBlocks bs) := by
      simp [renderBlocks]
    rw [hrender] at hlen ⊢
    simp only [List.length_cons, List.length_append] at hlen
    obtain ⟨f1, rfl⟩ : ∃ f1, fuel = f1 + 1 := ⟨fuel - 1, by omega⟩
    have hne : (pyStrip b.index).isEmpty = false :=
      pyIsDigit_isEmpty_false hb.index_digit
    simp only [parseLinesGo]
    rw [if_neg (by simp [hne]), if_pos hb.index_digit]
    have hskip : skipTimestamp (b.timestamp :: (b.text ++ [] :: renderBlocks bs)) =
        b.text ++ [] :: renderBlocks bs := by
      simp [skipTimestamp, hb.ts_arrow]
    rw [hskip, collectText_text_append b.text hb.text_ok (renderBlocks bs)]
    have htextne : (b.text.map pyStrip).isEmpty = false := by
      simpa [List.isEmpty_iff] using hb.text_ne
    rw [if_neg (by simp [htextne])]
    obtain ⟨f2, rfl⟩ : ∃ f2, f1 = f2 + 1 := ⟨f1 - 1, by omega⟩
    simp only [parseLinesGo]
    rw [if_pos (by decide : (pyStrip []).isEmpty = true)]
    rw [ih f2 (by omega)
      (fun z hz => hwf z (by simp [hz]))]
    simp

/-- The merge loop appends one `fileSection` per file and counts them. -/
theorem mergeLoop_eq (env : Env) (files : List (List Char)) :
    ∀ out count, mergeLoop env files out count =
      (out ++ (files.map (fileSection env)).flatten, count + files.length) := by
  induction files with
  | nil => intro out count; simp [mergeLoop]
  | cons p ps ih =>
    intro out count
    simp only [mergeLoop, ih, List.map_cons, List.flatten_cons, List.length_cons]
    refine Prod.ext ?_ ?_
    · simp [fileSection, List.append_assoc]
    · simp; omega

theorem isEmpty_false_of_ne_nil {l : List (List Char)} (h : l ≠ []) :
    l.isEmpty = false := by
  cases l with
  | nil => exact absurd rfl h
  | cons a t => rfl

/-- With at least one discovered file and a writable output file,
`merge_subtitles` writes one `fileSection` per discovered file and
returns the number of discovered files. -/
theorem merge_subtitles_run (env : Env) (output_dir final_output_file : List Char)
    (hne : discoverFiles env output_dir ≠ [])
    (hopen : env.openW final_output_file = .ok ()) :
    merge_subtitles env output_dir final_output_file =
      .ok ⟨some (mergedDoc env output_dir),
        (discoverFiles env output_dir).length⟩ := by
  have hfalse := isEmpty_false_of_ne_nil hne
  simp only [merge_subtitles, hfalse, Bool.false_eq_true, if_false, hopen]
  rw [mergeLoop_eq]
  simp [mergedDoc]

/-! ### Concrete environments used by counterexamples and witnesses -/

/-- Two discoverable `.srt` files of which `d/b.srt` is unreadable. -/
def cexEnv : Env where
  glob := fun _ ext => if ext = str ".srt" then [str "d/a.srt", str "d/b.srt"] else []
  read := fun p => if p = str "d/a.srt" then .ok (str "hi") else .error (str "Permission denied")
  openW := fun _ => .ok ()

/-- One discoverable file, but the output file cannot be opened. -/
def openFailEnv : Env where
  glob := fun _ ext => if ext = str ".srt" then [str "d/a.srt"] else []
  read := fun _ => .ok (str "hi")
  openW := fun _ => .error (str "No such directory")

/-- No discoverable subtitle files at all. -/
def emptyEnv : Env where
  glob := fun _ _ => []
  read := fun _ => .error (str "unused")
  openW := fun _ => .ok ()

/-! ### Claim theorems -/

set_option maxRecDepth 1000000 in
/-- C1 counterexample: The claim says that with N discoverable files
of which K are unreadable, `merge` returns N−K and writes N−K sections.
In `cexEnv`, N = 2 files are discovered and K = 1 of them (`d/b.srt`) is
unreadable, yet `merge_subtitles` returns 2, not 2−1, and the unreadable
file still contributes a section (its `FILE:` header is in the output):
the read error is caught inside `parse_srt_to_text`, which returns a
placeholder, so the loop's `except` arm never fires. -/
theorem merge_count_not_n_minus_k_cex :
    (discoverFiles cexEnv (str "d")).length = 2 ∧
    cexEnv.read (str "d/b.srt") = .error (str "Permission denied") ∧
    (merge_subtitles cexEnv (str "d") (str "out.txt")).toOption.map
        MergeOutcome.returnCount = some 2 ∧
    (str "FILE: d/b.srt") <:+: mergedDoc cexEnv (str "d") ∧
    ¬ (merge_subtitles cexEnv (str "d") (str "out.txt")).toOption.map
        MergeOutcome.returnCount = some (2 - 1) := by
  refine ⟨by decide, rfl, by decide, ?_, by decide⟩
  decide

/-- C1 amended: For every directory with at least one discoverable
file and a writable output file, `merge` returns N, the total number of
discovered files, regardless of how many are unreadable, and the output
document contains exactly one section per discovered file (an unreadable
file's section holds the error placeholder instead of a transcript);
processing continues past each corrupted file without stopping. -/
theorem merge_returns_total_discovered (env : Env)
    (output_dir final_output_file : List Char)
    (hne : discoverFiles env output_dir ≠ [])
    (hopen : env.openW final_output_file = .ok ()) :
    (merge_subtitles env output_dir final_output_file).toOption.map
        MergeOutcome.returnCount = some (discoverFiles env output_dir).length ∧
    merge_subtitles env output_dir final_output_file =
      .ok ⟨some (((discoverFiles env output_dir).map (fileSection env)).flatten),
        (discoverFiles env output_dir).length⟩ := by
  rw [merge_subtitles_run env _ _ hne hopen]
  exact ⟨rfl, rfl⟩

/-- Witness for the amended C1 on `cexEnv` (2 files, 1 unreadable). -/
theorem merge_returns_total_discovered_witness :
    discoverFiles cexEnv (str "d") ≠ [] ∧
    cexEnv.openW (str "out.txt") = .ok () ∧
    ((merge_subtitles cexEnv (str "d") (str "out.txt")).toOption.map
        MergeOutcome.returnCount = some (discoverFiles cexEnv (str "d")).length ∧
      merge_subtitles cexEnv (str "d") (str "out.txt") =
        .ok ⟨some (((discoverFiles cexEnv (str "d")).map (fileSection cexEnv)).flatten),
          (discoverFiles cexEnv (str "d")).length⟩) :=
  ⟨by decide, rfl, merge_returns_total_discovered cexEnv _ _ (by decide) rfl⟩

/-- C2: For every discovered file whose content cannot be read, the
error is caught locally (inside `parse_srt_to_text`), the placeholder
`[Error parsing file: <e>]` is embedded in the merged output in place of
that file's transcript (directly after that file's own header), and merge
continues to the remaining files: its count still covers every
discovered file. -/
theorem merge_embeds_error_placeholder (env : Env)
    (output_dir final_output_file p e : List Char)
    (hp : p ∈ discoverFiles env output_dir)
    (hread : env.read p = .error e)
    (hopen : env.openW final_output_file = .ok ()) :
    merge_subtitles env output_dir final_output_file =
      .ok ⟨some (mergedDoc env output_dir),
        (discoverFiles env output_dir).length⟩ ∧
    (str "FILE: " ++ p ++ str "\n" ++ eq80 ++ str "\n\n" ++
        (str "[Error parsing file: " ++ e ++ str "]")) <:+:
      mergedDoc env output_dir := by
  have hne : discoverFiles env output_dir ≠ [] := by
    rintro hnil; rw [hnil] at hp; simp at hp
  refine ⟨merge_subtitles_run env _ _ hne hopen, ?_⟩
  have hsec : fileSection env p <:+: mergedDoc env output_dir :=
    List.infix_of_mem_flatten (List.mem_map_of_mem _ hp)
  refine List.IsInfix.trans ?_ hsec
  have hdecomp : fileSection env p =
      (str "\n\n" ++ eq80 ++ str "\n" ++
          (str "VIDEO: " ++ splitextRoot (basename p) ++ str "\n")) ++
        (str "FILE: " ++ p ++ str "\n" ++ eq80 ++ str "\n\n" ++
          (str "[Error parsing file: " ++ e ++ str "]")) := by
    simp [fileSection, parse_srt_to_text, hread, List.append_assoc]
  rw [hdecomp]
  exact (List.suffix_append _ _).isInfix

/-- Witness for C2 on `cexEnv` at the unreadable file `d/b.srt`. -/
theorem merge_embeds_error_placeholder_witness :
    (str "d/b.srt") ∈ discoverFiles cexEnv (str "d") ∧
    cexEnv.read (str "d/b.srt") = .error (str "Permission denied") ∧
    cexEnv.openW (str "out.txt") = .ok () ∧
    (merge_subtitles cexEnv (str "d") (str "out.txt") =
        .ok ⟨some (mergedDoc cexEnv (str "d")),
          (discoverFiles cexEnv (str "d")).length⟩ ∧
      (str "FILE: " ++ str "d/b.srt" ++ str "\n" ++ eq80 ++ str "\n\n" ++
          (str "[Error parsing file: " ++ str "Permission denied" ++ str "]")) <:+:
        mergedDoc cexEnv (str "d")) :=
  ⟨by decide, rfl, rfl,
    merge_embeds_error_placeholder cexEnv (str "d") (str "out.txt")
      (str "d/b.srt") (str "Permission denied") (by decide) rfl rfl⟩

/-- C5: Sections appear in exactly the discovery order of their
source files, and discovery order is: all files of each extension in the
fixed registry order `.srt, .vtt, .ass, .lrc, .ttml, .sbv, .json`, and
within one extension the order the recursive directory walk returns. -/
theorem merge_sections_discovery_order (env : Env)
    (output_dir final_output_file : List Char)
    (hne : discoverFiles env output_dir ≠ [])
    (hopen : env.openW final_output_file = .ok ()) :
    merge_subtitles env output_dir final_output_file =
      .ok ⟨some ((([str ".srt", str ".vtt", str ".ass", str ".lrc",
              str ".ttml", str ".sbv", str ".json"].flatMap
                (fun ext => env.glob output_dir ext)).map
              (fileSection env)).flatten),
          ([str ".srt", str ".vtt", str ".ass", str ".lrc",
              str ".ttml", str ".sbv", str ".json"].flatMap
                (fun ext => env.glob output_dir ext)).length⟩ := by
  rw [merge_subtitles_run env _ _ hne hopen]
  rfl

/-- Witness for C5 on `cexEnv`. -/
theorem merge_sections_discovery_order_witness :
    discoverFiles cexEnv (str "d") ≠ [] ∧
    cexEnv.openW (str "out.txt") = .ok () ∧
    merge_subtitles cexEnv (str "d") (str "out.txt") =
      .ok ⟨some ((([str ".srt", str ".vtt", str ".ass", str ".lrc",
              str ".ttml", str ".sbv", str ".json"].flatMap
                (fun ext => cexEnv.glob (str "d") ext)).map
              (fileSection cexEnv)).flatten),
          ([str ".srt", str ".vtt", str ".ass", str ".lrc",
              str ".ttml", str ".sbv", str ".json"].flatMap
                (fun ext => cexEnv.glob (str "d") ext)).length⟩ :=
  ⟨by decide, rfl,
    merge_sections_discovery_order cexEnv (str "d") (str "out.txt") (by decide) rfl⟩

/-- C6: For every successfully processed file the section written is
exactly: two blank lines, a divider of 80 `=`, `VIDEO: <title>` with the
title the filename without extension, `FILE: <source path>`, a closing
divider of 80 `=`, one blank line, then the parsed transcript — one such
section per file, concatenated in discovery order.  (In the model every
discovered file is successfully processed, since per-file read errors are
already absorbed by `parse_srt_to_text`.) -/
theorem merge_section_format (env : Env)
    (output_dir final_output_file : List Char)
    (hne : discoverFiles env output_dir ≠ [])
    (hopen : env.openW final_output_file = .ok ()) :
    merge_subtitles env output_dir final_output_file =
      .ok ⟨some (((discoverFiles env output_dir).map (fun p =>
            str "\n\n" ++ List.replicate 80 '=' ++ str "\n" ++
            str "VIDEO: " ++ splitextRoot (basename p) ++ str "\n" ++
            str "FILE: " ++ p ++ str "\n" ++
            List.replicate 80 '=' ++ str "\n\n" ++
            parse_srt_to_text env p)).flatten),
        (discoverFiles env output_dir).length⟩ := by
  have hfs : fileSection env = fun p =>
      str "\n\n" ++ List.replicate 80 '=' ++ str "\n" ++
      str "VIDEO: " ++ splitextRoot (basename p) ++ str "\n" ++
      str "FILE: " ++ p ++ str "\n" ++
      List.replicate 80 '=' ++ str "\n\n" ++
      parse_srt_to_text env p := by
    funext p
    simp only [fileSection, eq80, List.append_assoc]
  rw [merge_subtitles_run env _ _ hne hopen]
  unfold mergedDoc
  rw [hfs]

/-- Witness for C6 on `cexEnv`. -/
theorem merge_section_format_witness :
    discoverFiles cexEnv (str "d") ≠ [] ∧
    cexEnv.openW (str "out.txt") = .ok () ∧
    merge_subtitles cexEnv (str "d") (str "out.txt") =
      .ok ⟨some (((discoverFiles cexEnv (str "d")).map (fun p =>
            str "\n\n" ++ List.replicate 80 '=' ++ str "\n" ++
            str "VIDEO: " ++ splitextRoot (basename p) ++ str "\n" ++
            str "FILE: " ++ p ++ str "\n" ++
            List.replicate 80 '=' ++ str "\n\n" ++
            parse_srt_to_text cexEnv p)).flatten),
        (discoverFiles cexEnv (str "d")).length⟩ :=
  ⟨by decide, rfl,
    merge_section_format cexEnv (str "d") (str "out.txt") (by decide) rfl⟩

/-- C7: When the output file cannot be opened for writing (and there
is at least one discovered file, so the open is attempted at all), the
error propagates out of `merge_subtitles` — it is not caught inside, and
no per-file processing happens: the call produces no document and no
count, only the open error. -/
theorem merge_open_error_propagates (env : Env)
    (output_dir final_output_file e : List Char)
    (hne : discoverFiles env output_dir ≠ [])
    (hopen : env.openW final_output_file = .error e) :
    merge_subtitles env output_dir final_output_file = .error e := by
  have hfalse := isEmpty_false_of_ne_nil hne
  simp only [merge_subtitles, hfalse, Bool.false_eq_true, if_false, hopen]

/-- Witness for C7 on `openFailEnv`. -/
theorem merge_open_error_propagates_witness :
    discoverFiles openFailEnv (str "d") ≠ [] ∧
    openFailEnv.openW (str "out.txt") = .error (str "No such directory") ∧
    merge_subtitles openFailEnv (str "d") (str "out.txt") =
      .error (str "No such directory") :=
  ⟨by decide, rfl,
    merge_open_error_propagates openFailEnv (str "d") (str "out.txt")
      (str "No such directory") (by decide) rfl⟩

/-- C8: When discovery finds zero matching subtitle files,
`merge_subtitles` returns 0 without raising and without creating or
touching the output file (`fileContent = none`): the zero check happens
before the output file is ever opened. -/
theorem merge_zero_discovered (env : Env)
    (output_dir final_output_file : List Char)
    (h : discoverFiles env output_dir = []) :
    merge_subtitles env output_dir final_output_file = .ok ⟨none, 0⟩ := by
  simp only [merge_subtitles, h, List.isEmpty_nil, if_true]

/-- Witness for C8 on `emptyEnv`. -/
theorem merge_zero_discovered_witness :
    discoverFiles emptyEnv (str "d") = [] ∧
    merge_subtitles emptyEnv (str "d") (str "out.txt") = .ok ⟨none, 0⟩ :=
  ⟨rfl, merge_zero_discovered emptyEnv (str "d") (str "out.txt") rfl⟩

/-- C3 counterexample: The claim says no line of the parsed output
ever contains `-->`.  But the text-collection loop only drops the single
line directly after an index line; a later line of the same numbered
block that contains `-->` is collected and joined into the output.  On
input `"1\na\nx --> y"` the whole returned text is the single line
`"a x --> y"`, which contains the marker. -/
theorem parse_arrow_in_output_cex :
    parseContent (str "1\na\nx --> y") = str "a x --> y" ∧
    hasArrow (str "a x --> y") = true :=
  ⟨by decide, by decide⟩

/-- C3 amended: For every input content none of whose lines is a
pure digit string after trimming (so the numbered-block branch is never
taken), no line of the parsed output contains the timestamp-range marker
`-->`; with index lines present, only the one line directly after the
index line is dropped for containing `-->`, and later block lines may
carry it into the output (see the counterexample).  Output lines are the
entries of `parseLines`, which `parse_srt_to_text` joins with newlines. -/
theorem parse_no_arrow_without_index_lines (content : List Char)
    (hnd : ∀ l ∈ content.splitOn '\n', pyIsDigit (pyStrip l) = false)
    (x : List Char) (hx : x ∈ parseLines (content.splitOn '\n')) :
    hasArrow x = false :=
  parseLinesGo_no_arrow _ _ le_rfl hnd x hx

/-- Witness for the amended C3: content with a `-->` line and no digit
lines; the marker line is dropped and the emitted line `"a"` is clean. -/
theorem parse_no_arrow_without_index_lines_witness :
    (∀ l ∈ (str "a\nx --> y\nb").splitOn '\n', pyIsDigit (pyStrip l) = false) ∧
    (str "a") ∈ parseLines ((str "a\nx --> y\nb").splitOn '\n') ∧
    hasArrow (str "a") = false :=
  ⟨by decide, by decide,
    parse_no_arrow_without_index_lines (str "a\nx --> y\nb") (by decide)
      (str "a") (by decide)⟩

/-- C4: For all well-formed subtitle content in the standard
numbered-block format (index line, timestamp line, text lines, blank
separator), parsing returns exactly one output line per block, each the
space-join of the block's trimmed text lines, in block order; and in
particular the claim's example input parses to `"Hello world\nFoo"`. -/
theorem parse_standard_blocks (bs : List SrtBlock)
    (hwf : ∀ b ∈ bs, WellFormedBlock b) :
    parseContent (List.intercalate ['\n'] (renderBlocks bs)) =
      List.intercalate ['\n']
        (bs.map (fun b => List.intercalate [' '] (b.text.map pyStrip))) ∧
    parseContent (str "1\n00:00:01,000 --> 00:00:02,000\nHello\nworld\n\n2\n00:00:03,000 --> 00:00:04,000\nFoo\n") =
      str "Hello world\nFoo" := by
  refine ⟨?_, by decide⟩
  unfold parseContent parseLines
  by_cases hbs : bs = []
  · subst hbs; decide
  · have hnl : ∀ l ∈ renderBlocks bs, '\n' ∉ l := by
      intro l hl
      rw [renderBlocks, List.mem_flatMap] at hl
      obtain ⟨b, hb, hlb⟩ := hl
      have hw := hwf b hb
      rcases List.mem_cons.mp hlb with rfl | hlb
      · exact hw.no_newline _ (by simp)
      rcases List.mem_cons.mp hlb with rfl | hlb
      · exact hw.no_newline _ (by simp)
      rcases List.mem_append.mp hlb with hlb | hlb
      · exact hw.no_newline _ (by simp [hlb])
      · simp only [List.mem_singleton] at hlb
        subst hlb; simp
    have hne : renderBlocks bs ≠ [] := by
      obtain ⟨b, bs', rfl⟩ := List.exists_cons_of_ne_nil hbs
      simp [renderBlocks]
    rw [List.splitOn_intercalate (renderBlocks bs) '\n' hnl hne]
    exact congrArg _ (parseLinesGo_renderBlocks bs _ le_rfl hwf)

/-- The first block of the claim's example input. -/
def exBlock1 : SrtBlock :=
  ⟨str "1", str "00:00:01,000 --> 00:00:02,000", [str "Hello", str "world"]⟩

/-- The second block of the claim's example input. -/
def exBlock2 : SrtBlock :=
  ⟨str "2", str "00:00:03,000 --> 00:00:04,000", [str "Foo"]⟩

/-- Witness for C4: the claim's example, rendered from two well-formed
blocks; the rendered content is exactly the claim's input string. -/
theorem parse_standard_blocks_witness :
    (∀ b ∈ [exBlock1, exBlock2], WellFormedBlock b) ∧
    List.intercalate ['\n'] (renderBlocks [exBlock1, exBlock2]) =
      str "1\n00:00:01,000 --> 00:00:02,000\nHello\nworld\n\n2\n00:00:03,000 --> 00:00:04,000\nFoo\n" ∧
    parseContent (List.intercalate ['\n'] (renderBlocks [exBlock1, exBlock2])) =
      List.intercalate ['\n']
        ([exBlock1, exBlock2].map
          (fun b => List.intercalate [' '] (b.text.map pyStrip))) := by
  have hwf : ∀ b ∈ [exBlock1, exBlock2], WellFormedBlock b := by
    intro b hb
    rcases List.mem_cons.mp hb with rfl | hb
    · exact ⟨by decide, by decide, by decide, by decide, by decide⟩
    rcases List.mem_cons.mp hb with rfl | hb
    · exact ⟨by decide, by decide, by decide, by decide, by decide⟩
    · simp at hb
  exact ⟨hwf, by decide, (parse_standard_blocks [exBlock1, exBlock2] hwf).1⟩

/-- C9: For every file path, `parse_srt_to_text` is total (never
raises past the parser): it either parses the content the read returned,
or, when the content cannot be read, returns the textual placeholder
`[Error parsing file: <e>]` describing the error. -/
theorem parse_total_or_placeholder (env : Env) (file_path : List Char) :
    (∃ c, env.read file_path = .ok c ∧
        parse_srt_to_text env file_path = parseContent c) ∨
    (∃ e, env.read file_path = .error e ∧
        parse_srt_to_text env file_path =
          str "[Error parsing file: " ++ e ++ str "]") := by
  cases h : env.read file_path with
  | ok c => exact .inl ⟨c, rfl, by simp [parse_srt_to_text, h]⟩
  | error e => exact .inr ⟨e, rfl, by simp [parse_srt_to_text, h]⟩

/-- C10: For every input content, no line of the parsed output is
composed entirely of ASCII digits after trimming: pure digit lines are
consumed as block indices (even with no timestamp line after them), and
inside a block a pure digit line ends the collection and is itself
consumed as the next index, so none is ever emitted.  Output lines are
the entries of `parseLines`, which the parser joins with newlines. -/
theorem parse_line_never_pure_digits (content x : List Char)
    (hx : x ∈ parseLines (content.splitOn '\n')) :
    pyIsDigit (pyStrip x) = false :=
  parseLinesGo_not_digit _ _ le_rfl x hx

/-- Witness for C10: a block containing a digit caption line `42`; the
emitted line `"hi"` is not a digit string (and `42` is not emitted). -/
theorem parse_line_never_pure_digits_witness :
    (str "hi") ∈ parseLines ((str "1\n00:00:01,000 --> 00:00:02,000\nhi\n42\nok").splitOn '\n') ∧
    pyIsDigit (pyStrip (str "hi")) = false :=
  ⟨by decide,
    parse_line_never_pure_digits (str "1\n00:00:01,000 --> 00:00:02,000\nhi\n42\nok")
      (str "hi") (by decide)⟩

end SubScraper
